import Mathlib

/-!
Verification development for the qr_benchmark analysis scripts.

The repository consists of small pandas/matplotlib scripts:
  * `viz.py` — loads `raw_measurements.csv`, derives `duration_ms` and
    `success_numeric`, filters to the correct decodes, and renders four
    charts over grouped aggregates;
  * `debug_data.py`, `debug_decoded.py`, `debug_incorrect.py`,
    `debug_status.py` — ad-hoc inspection queries over the same CSV;
  * `debug_viz.py` — overlays ground-truth and detected QR polygons on a
    base raster and renders a legend.

The definitions below are a shallow embedding of those scripts: data frames
become lists of records, pandas column operations become list operations,
exceptions become `Except`/`Option` results, and the file system becomes an
explicit existence predicate.  Rationals stand in for the floating-point
arithmetic (all quantities involved — counts, microsecond durations, and the
derived means/rates — are exact in the source computations considered here).
-/

namespace QrBenchmark

/-- First-occurrence deduplication: keeps the first occurrence of every
value, in order of first appearance.  This is both the key order pandas
builds counts in (hash-table insertion order) and the key order of a Python
`dict(zip(labels, handles))` used for legend deduplication in
`debug_viz.py`. -/
def firstSeenUniques {α : Type} [DecidableEq α] : List α → List α
  | [] => []
  | x :: rest => x :: (firstSeenUniques rest).filter (fun y => y ≠ x)

/-- Stable insertion: place `x` before the first element `y` with
`le x y = true`.  Used to build stable sorts. -/
def insertBy {α : Type} (le : α → α → Bool) (x : α) : List α → List α
  | [] => [x]
  | y :: rest => if le x y then x :: y :: rest else y :: insertBy le x rest

/-- Stable insertion sort with respect to `le`. -/
def sortBy {α : Type} (le : α → α → Bool) : List α → List α
  | [] => []
  | x :: rest => insertBy le x (sortBy le rest)

/-! ## Measurement records (`raw_measurements.csv` rows)

One row of the CSV as the scripts see it after `pd.read_csv`.  A missing
(empty) text cell is loaded by pandas as NaN; that is modelled by `Option`
on the two payload-text fields.  `duration_us` is a non-negative number
(spec §3.1), read as a numeric column. -/

structure Record where
  file_path : String
  category : String
  library : String
  status : String
  expected_text : Option String
  decoded_text : Option String
  duration_us : ℚ
deriving DecidableEq, Repr

/-- `viz.py` line 17: `df['success_numeric'] = (df['status'] == 'Correct').astype(int)`. -/
def success_numeric (r : Record) : ℚ :=
  if r.status = "Correct" then 1 else 0

/-- `viz.py` line 20: `correct_decodes = df[df['status'] == 'Correct']`. -/
def correct_decodes (df : List Record) : List Record :=
  df.filter (fun r => r.status = "Correct")

/-- `viz.py` line 16: `df['duration_ms'] = df['duration_us'] / 1000.0`. -/
def duration_ms (r : Record) : ℚ :=
  r.duration_us / 1000

/-- Count of records in a group with `status == 'Correct'`. -/
def countCorrect (g : List Record) : ℕ :=
  (correct_decodes g).length

/-- Arithmetic mean of a list of rationals (pandas `mean`).  On the empty
list pandas yields NaN; here division by zero yields `0`, which is the
report-0 convention of spec §3.2 — the grouped pipelines below only ever
apply `mean` to non-empty groups. -/
def mean (xs : List ℚ) : ℚ :=
  xs.sum / (xs.length : ℚ)

/-- The per-group success rate of `viz.py` chart 2: seaborn's `barplot`
plots the group mean of `success_numeric`, and the axis tick format
`'{:,.0%}'` scales it to a percentage. -/
def groupSuccessRate (g : List Record) : ℚ :=
  mean (g.map success_numeric) * 100

/-- The grouping key used by `viz.py` charts 2–4: `x='category'`,
`hue='library'`. -/
def keyOf (r : Record) : String × String :=
  (r.category, r.library)

/-- The (category, library) keys present in a frame, in first-seen order.
A pandas groupby only ever materialises keys that occur in the data:
there are no empty groups. -/
def groupKeys (df : List Record) : List (String × String) :=
  firstSeenUniques (df.map keyOf)

/-- The rows of a frame having a given (category, library) key. -/
def groupOf (df : List Record) (k : String × String) : List Record :=
  df.filter (fun r => keyOf r = k)

/-- Grouped duration statistics of `viz.py` charts 3 and 4 (mean point
plot, box plot median): the statistic `stat` of `duration_ms`, per
(category, library) group **of the correct-decodes frame** — both charts
are drawn from `correct_decodes`, so groups with no successful attempt do
not occur at all. -/
def groupedStat (stat : List ℚ → ℚ) (df : List Record) : List ((String × String) × ℚ) :=
  (groupKeys (correct_decodes df)).map
    (fun k => (k, stat ((groupOf (correct_decodes df) k).map duration_ms)))

/-- Median as the box plot draws it: middle of the sorted data (mean of the
two middles for even length).  Like `mean`, the junk value on `[]` is never
reached by `groupedStat` (groups are non-empty). -/
def median (xs : List ℚ) : ℚ :=
  let s := sortBy (fun a b => a ≤ b) xs
  if s.length % 2 = 1 then s.getD (s.length / 2) 0
  else (s.getD (s.length / 2 - 1) 0 + s.getD (s.length / 2) 0) / 2

/-! ## Loading the measurement log (`viz.py` lines 7–17)

`pd.read_csv` itself accepts any header; the script then accesses the
columns it needs, and pandas raises `KeyError` on a missing column — the
failure the spec's taxonomy calls `DataUnavailable`.  The raw file is a
header row plus string cell rows. -/

structure RawTable where
  header : List String
  rows : List (List String)
deriving DecidableEq, Repr

inductive LoadError where
  | DataUnavailable : String → LoadError
deriving DecidableEq, Repr

/-- Position of a column name in the header. -/
def colIndex (c : String) : List String → Option ℕ
  | [] => none
  | h :: rest => if h = c then some 0 else (colIndex c rest).map (fun i => i + 1)

/-- `df[c]`: the column's cells, or a `KeyError` when the column is absent
from the header. -/
def getCol (t : RawTable) (c : String) : Except LoadError (List String) :=
  match colIndex c t.header with
  | none => Except.error (LoadError.DataUnavailable ("KeyError: " ++ c))
  | some i => Except.ok (t.rows.map (fun row => row.getD i ""))

/-- pandas' numeric coercion of a `duration_us` cell, on the well-formed
(non-negative integer, spec §3.1) cells the harness produces. -/
def parseDuration (s : String) : ℚ :=
  ((s.toNat?).getD 0 : ℚ)

/-- Zip the four columns `viz.py` touches back into records; the columns
the script never accesses (`file_path`, `expected_text`, `decoded_text`)
play no role in its computation and are left blank here. -/
def zipRecords : List String → List String → List String → List String → List Record
  | d :: ds, s :: ss, c :: cs, l :: ls =>
      { file_path := "", category := c, library := l, status := s,
        expected_text := none, decoded_text := none,
        duration_us := parseDuration d } :: zipRecords ds ss cs ls
  | _, _, _, _ => []

/-- The load-and-preprocess prefix of `generate_visualizations`
(`viz.py` lines 14–17): the first column accessed is `duration_us`
(line 16), then `status` (line 17); the chart calls then use `category`
and `library`.  An absent column aborts with the `KeyError` before any
record set or output exists. -/
def load_viz (t : RawTable) : Except LoadError (List Record) := do
  let dur ← getCol t "duration_us"
  let st ← getCol t "status"
  let cat ← getCol t "category"
  let lib ← getCol t "library"
  Except.ok (zipRecords dur st cat lib)

/-! ## The chart pipeline of `generate_visualizations` (`viz.py` lines 19–99)

The script has no empty-subset handling.  Chart 1 sets
`plt.xlim(0, correct_decodes['duration_ms'].quantile(0.95))`; the 0.95
quantile of an empty series is NaN, and matplotlib rejects a NaN axis
limit with `ValueError: Axis limits cannot be NaN or Inf`, before the
first `savefig`.  That exception is uncaught, so the whole run stops and
none of the four chart files is written. -/

/-- pandas `Series.quantile(0.95)` with the default linear interpolation;
`none` models the NaN returned on an empty series. -/
def quantile95 (xs : List ℚ) : Option ℚ :=
  match sortBy (fun a b => a ≤ b) xs with
  | [] => none
  | s =>
      let n := s.length
      let h : ℚ := (19 / 20) * ((n : ℚ) - 1)
      let lo : ℕ := (Int.toNat ⌊h⌋)
      let hi : ℕ := (Int.toNat ⌈h⌉)
      some (s.getD lo 0 + (h - (lo : ℚ)) * (s.getD hi 0 - s.getD lo 0))

/-- The chart files `generate_visualizations` writes, in order, or the
uncaught exception that stops it.  The only data-dependent failure point
on the modelled path is the NaN axis limit of chart 1 (see above); it
occurs before chart 1's own `savefig`, so on failure no chart at all is
produced. -/
def vizCharts (df : List Record) : Except String (List String) :=
  let cd := correct_decodes df
  match quantile95 (cd.map duration_ms) with
  | none => Except.error "ValueError: Axis limits cannot be NaN or Inf"
  | some _ =>
      Except.ok ["dist_time.png", "success_by_defect.png",
                 "perf_by_defect_mean.png", "perf_by_defect_dist.png"]

/-! ## Inspector queries (`debug_decoded.py`)

`debug_decoded.py` filters the frame to `status == 'Incorrect'` and prints
`incorrect['decoded_text'].value_counts()`.  pandas `value_counts` counts
the non-NaN values (default `dropna=True`), in first-seen key order, and
sorts descending by count; the descending sort is stable, so equal counts
keep first-seen order. -/

/-- `debug_decoded.py` line 4: `incorrect = df[df['status'] == 'Incorrect']`. -/
def incorrectOf (df : List Record) : List Record :=
  df.filter (fun r => r.status = "Incorrect")

/-- The `decoded_text` column of a frame (`incorrect['decoded_text']`);
`none` is a NaN cell. -/
def decodedColumn (df : List Record) : List (Option String) :=
  df.map (fun r => r.decoded_text)

/-- The present (non-NaN) values of a column; `value_counts` drops the NaN
entries. -/
def presentValues (xs : List (Option String)) : List String :=
  xs.filterMap id

/-- The (value, count) pairs of `value_counts` before sorting: one pair per
distinct present value, in order of first appearance, counting occurrences
among the present values. -/
def countsInFirstSeenOrder (xs : List (Option String)) : List (String × ℕ) :=
  (firstSeenUniques (presentValues xs)).map
    (fun v => (v, (presentValues xs).count v))

/-- `Series.value_counts()`: the frequency table of the non-NaN values,
sorted descending by count, stably (ties keep first-seen order). -/
def value_counts (xs : List (Option String)) : List (String × ℕ) :=
  sortBy (fun p q => q.2 ≤ p.2) (countsInFirstSeenOrder xs)

/-! ## The debug overlay (`debug_viz.py`)

`visualize_debug` loads a JSON snapshot, resolves the base image path with
one `../` fallback, then adds one matplotlib `Polygon` patch per
ground-truth polygon (label `'Ground Truth'` for index 0, `''` for the
rest) and one per detection with non-empty `points` (label
`'lib (status)'`), printing a `Library: lib, Status: status` line for
every detection.  The legend is built from the axis's labelled artists —
matplotlib omits artists whose label is empty or starts with `'_'` (which
covers the vertex-marker `plt.plot` lines) — deduplicated through
`dict(zip(labels, handles))`, whose key order is first occurrence. -/

structure Detection where
  library : String
  status : String
  points : List (ℚ × ℚ)
deriving DecidableEq, Repr

structure Snapshot where
  image_path : String
  ground_truth_sets : List (List (ℚ × ℚ))
  detections : List Detection
deriving DecidableEq, Repr

/-- A polygon patch added to the axes, with its legend label. -/
structure Patch where
  pts : List (ℚ × ℚ)
  label : String
deriving DecidableEq, Repr

/-- The ground-truth loop (`for set_idx, pts in enumerate(...)`): label
`'Ground Truth'` exactly when `set_idx == 0`, else the empty label. -/
def gtPatchesAux : ℕ → List (List (ℚ × ℚ)) → List Patch
  | _, [] => []
  | i, pts :: rest =>
      Patch.mk pts (if i = 0 then "Ground Truth" else "") :: gtPatchesAux (i + 1) rest

/-- Ground-truth patches of a snapshot.  (The `data.get('ground_truth_sets')`
truthiness guard skips the loop exactly when the list is empty or absent,
which coincides with the loop doing nothing.) -/
def gtPatchesOf (s : Snapshot) : List Patch :=
  gtPatchesAux 0 s.ground_truth_sets

/-- Legend label of a drawn detection: `f'{lib} ({status})'`. -/
def detLabel (d : Detection) : String :=
  d.library ++ " (" ++ d.status ++ ")"

/-- The detection loop: `if points:` draws the polygon, so exactly the
detections with non-empty `points` produce a patch. -/
def detPatchesOf (s : Snapshot) : List Patch :=
  (s.detections.filter (fun d => d.points ≠ [])).map
    (fun d => Patch.mk d.points (detLabel d))

/-- The status line printed for a detection:
`print(f"Library: {lib}, Status: {status}")`. -/
def reportLine (d : Detection) : String :=
  "Library: " ++ d.library ++ ", Status: " ++ d.status

/-- The textual status report: one line per detection, drawn or not. -/
def statusReportOf (s : Snapshot) : List String :=
  s.detections.map reportLine

/-- Labels of all patches on the axes, in drawing order (ground truth
first, then detections). -/
def allPatchLabels (s : Snapshot) : List String :=
  (gtPatchesOf s ++ detPatchesOf s).map Patch.label

/-- The labels matplotlib's legend machinery collects: artists with an
empty label or a label starting with `'_'` are omitted. -/
def visibleLabels (s : Snapshot) : List String :=
  (allPatchLabels s).filter (fun l => l ≠ "" ∧ l.startsWith "_" = false)

/-- Legend rows after `dict(zip(labels, handles))` deduplication: distinct
labels in first-occurrence order. -/
def legendLabelsOf (s : Snapshot) : List String :=
  firstSeenUniques (visibleLabels s)

/-- The full overlay output when the base image opens. -/
structure VizOutput where
  gtPatches : List Patch
  detPatches : List Patch
  statusReport : List String
  legendLabels : List String
deriving DecidableEq, Repr

/-- Path resolution of `visualize_debug` (`debug_viz.py` lines 16–22):
keep `image_path` when it exists, else switch to the `../` candidate when
that exists, else (after printing the not-found message) keep the original
path — the code falls through to `Image.open` either way.  `fs` is the
file-existence predicate. -/
def resolveImagePath (fs : String → Bool) (p : String) : String :=
  if fs p then p
  else if fs ("../" ++ p) then "../" ++ p
  else p

/-- `visualize_debug` on one snapshot: `Image.open` raises on a missing
file; the handler prints the message and returns, producing no overlay —
`none`.  Otherwise the patches, report and legend are produced and the
overlay raster is saved. -/
def visualizeDebug (fs : String → Bool) (s : Snapshot) : Option VizOutput :=
  let p := resolveImagePath fs s.image_path
  if fs p then
    some (VizOutput.mk (gtPatchesOf s) (detPatchesOf s)
      (statusReportOf s) (legendLabelsOf s))
  else none

/-! ## Concrete inputs used by witnesses and counterexamples -/

def exC1 : List Record :=
  [⟨"a.png", "decoding", "rqrr", "Correct", some "T", some "T", 1200⟩,
   ⟨"b.png", "decoding", "rqrr", "Correct", some "T", some "T", 1800⟩]

/-- A record whose `status` says success but whose decoded text disagrees
with the expected text. -/
def recC2 : Record :=
  ⟨"img1.png", "decoding", "rqrr", "Correct", some "HELLO", some "WORLD", 1500⟩

/-- A measurement log whose header lacks the `duration_us` column. -/
def tblC3 : RawTable :=
  ⟨["file_path", "category", "library", "status", "expected_text", "decoded_text"],
   [["a.png", "decoding", "rqrr", "Correct", "T", "T"]]⟩

def exC4 : List Record :=
  [⟨"a.png", "decoding", "rqrr", "Correct", some "T", some "T", 1000⟩,
   ⟨"b.png", "decoding", "rqrr", "Incorrect", some "T", some "U", 4000⟩]

/-- A frame with no correct decode at all. -/
def exC7 : List Record :=
  [⟨"a.png", "blur", "rqrr", "Incorrect", some "T", some "U", 10⟩]

/-- A filtered set containing an `Incorrect` record whose `decoded_text`
is missing (a NaN cell). -/
def exC9 : List Record :=
  [⟨"c.png", "decoding", "rqrr", "Incorrect", some "abc", none, 100⟩]

/-- A snapshot with one empty-points detection and one drawn detection. -/
def snapC5 : Snapshot :=
  ⟨"qr1.png", [],
   [⟨"rqrr", "NotFound", []⟩,
    ⟨"rxing", "Correct", [(0, 0), (10, 0), (10, 10), (0, 10)]⟩]⟩

def detC5 : Detection :=
  ⟨"rxing", "Correct", [(0, 0), (10, 0), (10, 10), (0, 10)]⟩

/-- Scenario C's snapshot: no ground truth, one not-found detection. -/
def snapC6 : Snapshot :=
  ⟨"imgs/test.png", [], [⟨"rqrr", "NotFound", []⟩]⟩

def snapC8 : Snapshot :=
  ⟨"missing.png", [[(0, 0), (1, 0), (1, 1)]], [⟨"rqrr", "Correct", [(0, 0), (1, 1), (2, 2)]⟩]⟩

/-- A snapshot with two ground-truth polygons and one drawn detection. -/
def snapC10 : Snapshot :=
  ⟨"qr2.png",
   [[(0, 0), (4, 0), (4, 4)], [(8, 8), (12, 8), (12, 12)]],
   [⟨"rqrr", "Correct", [(1, 1), (3, 1), (3, 3)]⟩]⟩

/-! ## Helper lemmas -/

theorem mem_firstSeenUniques {α : Type} [DecidableEq α] {a : α} {l : List α} :
    a ∈ firstSeenUniques l ↔ a ∈ l := by
  induction l with
  | nil => simp [firstSeenUniques]
  | cons x rest ih =>
    simp only [firstSeenUniques, List.mem_cons, List.mem_filter, ih,
      decide_eq_true_eq]
    by_cases h : a = x <;> simp [h]

theorem nodup_firstSeenUniques {α : Type} [DecidableEq α] (l : List α) :
    (firstSeenUniques l).Nodup := by
  induction l with
  | nil => simp [firstSeenUniques]
  | cons x rest ih =>
    simp only [firstSeenUniques, List.nodup_cons]
    refine ⟨fun hx => ?_, ih.filter _⟩
    have := (List.mem_filter.mp hx).2
    simp at this

theorem sum_map_success (g : List Record) :
    (g.map success_numeric).sum = (countCorrect g : ℚ) := by
  induction g with
  | nil => simp [countCorrect, correct_decodes]
  | cons r g ih =>
    simp only [countCorrect, correct_decodes, List.filter_cons] at ih ⊢
    by_cases h : r.status = "Correct"
    · simp only [List.map_cons, List.sum_cons, success_numeric, h, ih]
      simp [h]
      ring
    · simp [success_numeric, h, ih]

theorem countCorrect_le_length (g : List Record) : countCorrect g ≤ g.length :=
  List.length_filter_le _ g

theorem countCorrect_eq_length_iff (g : List Record) :
    countCorrect g = g.length ↔ ∀ r ∈ g, r.status = "Correct" := by
  unfold countCorrect correct_decodes
  constructor
  · intro h
    have heq := (List.filter_sublist g).eq_of_length h
    intro r hr
    have := List.filter_eq_self.mp heq r hr
    simpa using this
  · intro h
    rw [List.filter_eq_self.mpr (fun r hr => by simp [h r hr])]

theorem countCorrect_eq_zero_iff (g : List Record) :
    countCorrect g = 0 ↔ ∀ r ∈ g, r.status ≠ "Correct" := by
  unfold countCorrect correct_decodes
  rw [List.length_eq_zero, List.filter_eq_nil_iff]
  simp

/-- C1 — For every group of measurement records, the aggregated success rate
(the mean of `success_numeric` scaled to a percentage, as chart 2 of
`viz.py` computes it) equals (count of records with `status == 'Correct'`)
/ (group size) × 100; it lies in [0, 100]; it is 0 exactly when no record
of the group is `Correct`; for a non-empty group it is 100 exactly when all
records are `Correct`; and for an empty group it is 0 rather than an
error (every function here is total). -/
theorem c1_success_rate (g : List Record) :
    groupSuccessRate g = (countCorrect g : ℚ) / (g.length : ℚ) * 100
    ∧ 0 ≤ groupSuccessRate g
    ∧ groupSuccessRate g ≤ 100
    ∧ (groupSuccessRate g = 0 ↔ countCorrect g = 0)
    ∧ (g ≠ [] → (groupSuccessRate g = 100 ↔ ∀ r ∈ g, r.status = "Correct"))
    ∧ (g = [] → groupSuccessRate g = 0) := by
  have hf : groupSuccessRate g = (countCorrect g : ℚ) / (g.length : ℚ) * 100 := by
    unfold groupSuccessRate mean
    rw [sum_map_success, List.length_map]
  rcases eq_or_ne g [] with hg | hg
  · subst hg
    refine ⟨hf, ?_, ?_, ?_, ?_, ?_⟩ <;>
      simp [groupSuccessRate, mean, countCorrect, correct_decodes]
  · have hn : 0 < g.length := List.length_pos.mpr hg
    have hnq : (0 : ℚ) < (g.length : ℚ) := by exact_mod_cast hn
    have hkq : (0 : ℚ) ≤ (countCorrect g : ℚ) := by positivity
    have hkn : (countCorrect g : ℚ) ≤ (g.length : ℚ) := by
      exact_mod_cast countCorrect_le_length g
    refine ⟨hf, ?_, ?_, ?_, fun _ => ?_, fun h => absurd h hg⟩
    · rw [hf]; positivity
    · rw [hf]
      have : (countCorrect g : ℚ) / (g.length : ℚ) ≤ 1 :=
        (div_le_one hnq).mpr hkn
      nlinarith
    · rw [hf]
      constructor
      · intro h
        rcases mul_eq_zero.mp h with h1 | h1
        · have : (countCorrect g : ℚ) = 0 := by
            rcases div_eq_zero_iff.mp h1 with h2 | h2
            · exact h2
            · exact absurd h2 hnq.ne'
          exact_mod_cast this
        · norm_num at h1
      · intro h; rw [h]; norm_num
    · rw [hf]
      constructor
      · intro h
        have h1 : (countCorrect g : ℚ) / (g.length : ℚ) = 1 := by nlinarith
        have h2 : (countCorrect g : ℚ) = (g.length : ℚ) :=
          (div_eq_one_iff_eq hnq.ne').mp h1
        exact (countCorrect_eq_length_iff g).mp (by exact_mod_cast h2)
      · intro h
        have h2 : countCorrect g = g.length := (countCorrect_eq_length_iff g).mpr h
        rw [h2, div_self hnq.ne']
        norm_num

/-- Witness for C1 at a concrete two-record group: rate 100, in bounds,
and the all-correct characterisation holds. -/
theorem c1_success_rate_witness :
    0 ≤ groupSuccessRate exC1
    ∧ groupSuccessRate exC1 ≤ 100
    ∧ groupSuccessRate exC1 = 100 := by
  have h := c1_success_rate exC1
  exact ⟨h.2.1, h.2.2.1, (h.2.2.2.2.1 (by decide)).mpr (by decide)⟩

/-- C2, as stated, is false on the code: `viz.py` computes success from the
`status` field alone (`success_numeric`, `correct_decodes`) and never
compares `decoded_text` with `expected_text`, so a record with
`status == 'Correct'` but `decoded_text ≠ expected_text` is silently
counted as a success (here: it yields a 100% success rate on its own),
and no data-consistency flag of any kind is produced. -/
theorem c2_counterexample :
    recC2.status = "Correct"
    ∧ recC2.decoded_text ≠ recC2.expected_text
    ∧ success_numeric recC2 = 1
    ∧ correct_decodes [recC2] = [recC2]
    ∧ groupSuccessRate [recC2] = 100 := by
  refine ⟨rfl, by simp [recC2], ?_, ?_, ?_⟩
  · simp [success_numeric, recC2]
  · simp [correct_decodes, recC2]
  · norm_num [groupSuccessRate, mean, success_numeric, recC2]

/-- C2 amended — the analysis does not flag status/text inconsistencies:
every record with `status == 'Correct'` is counted as a success (it enters
`correct_decodes` and contributes `success_numeric = 1`), and its
contribution is unchanged under arbitrary replacement of its
`expected_text`/`decoded_text` fields — success is derived from `status`
alone. -/
theorem c2_success_from_status_alone (r : Record) (df : List Record)
    (hmem : r ∈ df) (hst : r.status = "Correct") :
    r ∈ correct_decodes df
    ∧ success_numeric r = 1
    ∧ ∀ e d : Option String,
        success_numeric { r with expected_text := e, decoded_text := d } = 1 := by
  refine ⟨List.mem_filter.mpr ⟨hmem, by simp [hst]⟩, ?_, ?_⟩
  · simp [success_numeric, hst]
  · intro e d; simp [success_numeric, hst]

/-- Witness for C2's amended theorem at the concrete inconsistent record. -/
theorem c2_success_from_status_alone_witness :
    recC2 ∈ correct_decodes [recC2] ∧ success_numeric recC2 = 1 := by
  have h := c2_success_from_status_alone recC2 [recC2]
    (List.mem_singleton.mpr rfl) rfl
  exact ⟨h.1, h.2.1⟩

theorem colIndex_eq_none_of_not_mem {c : String} {l : List String} (h : c ∉ l) :
    colIndex c l = none := by
  induction l with
  | nil => rfl
  | cons x rest ih =>
    simp only [List.mem_cons, not_or] at h
    have hx : ¬ x = c := fun hxc => h.1 hxc.symm
    simp [colIndex, hx, ih h.2]

/-- C3 — For every measurement log missing the `duration_us` column, the
load-and-preprocess prefix of `viz.py` fails (the very first column access,
`df['duration_us']`, raises the `KeyError` the spec taxonomy calls
`DataUnavailable`) and returns no partial record set: the result is the
bare error, carrying no records, produced before any chart output
exists. -/
theorem c3_missing_duration_fails (t : RawTable)
    (h : "duration_us" ∉ t.header) :
    load_viz t = Except.error (LoadError.DataUnavailable "KeyError: duration_us") := by
  unfold load_viz getCol
  rw [colIndex_eq_none_of_not_mem h]
  rfl

/-- Witness for C3 at a concrete header missing `duration_us`. -/
theorem c3_missing_duration_fails_witness :
    load_viz tblC3
      = Except.error (LoadError.DataUnavailable "KeyError: duration_us") :=
  c3_missing_duration_fails tblC3 (by decide)

/-- C4 — Grouped duration statistics (`stat` ranges over `median`, `mean`,
…) are computed only over records with `status == 'Correct'`: every value
in `groupedStat stat df` is `stat` of the `duration_ms` column of a
non-empty all-`Correct` group, a (category, library) key appears in the
output exactly when the frame has a correct record with that key (so a
group with zero successful attempts yields no entry at all — never a 0),
and `duration_ms` is `duration_us / 1000`. -/
theorem c4_correct_only_durations (stat : List ℚ → ℚ) (df : List Record)
    (k : String × String) (v : ℚ) :
    ((k, v) ∈ groupedStat stat df →
        v = stat ((groupOf (correct_decodes df) k).map duration_ms)
        ∧ groupOf (correct_decodes df) k ≠ []
        ∧ ∀ r ∈ groupOf (correct_decodes df) k, r.status = "Correct")
    ∧ ((k ∈ (groupedStat stat df).map (fun p => p.1)) ↔
        ∃ r ∈ df, r.status = "Correct" ∧ keyOf r = k)
    ∧ ∀ r : Record, duration_ms r = r.duration_us / 1000 := by
  have hkeys : ∀ k₀, k₀ ∈ groupKeys (correct_decodes df) ↔
      ∃ r ∈ df, r.status = "Correct" ∧ keyOf r = k₀ := by
    intro k₀
    unfold groupKeys
    rw [mem_firstSeenUniques, List.mem_map]
    constructor
    · rintro ⟨r, hr, hk⟩
      have := List.mem_filter.mp hr
      exact ⟨r, this.1, by simpa using this.2, hk⟩
    · rintro ⟨r, hr, hst, hk⟩
      exact ⟨r, List.mem_filter.mpr ⟨hr, by simp [hst]⟩, hk⟩
  refine ⟨?_, ?_, fun r => rfl⟩
  · intro hmem
    unfold groupedStat at hmem
    obtain ⟨k₁, hk₁, heq⟩ := List.mem_map.mp hmem
    cases heq
    refine ⟨rfl, ?_, ?_⟩
    · obtain ⟨r, hr, hst, hkey⟩ := (hkeys k).mp hk₁
      intro hempty
      have hmem2 : r ∈ groupOf (correct_decodes df) k :=
        List.mem_filter.mpr ⟨List.mem_filter.mpr ⟨hr, by simp [hst]⟩, by simp [hkey]⟩
      rw [hempty] at hmem2
      exact List.not_mem_nil r hmem2
    · intro r hr
      have := List.mem_filter.mp (List.mem_filter.mp hr).1
      simpa using this.2
  · unfold groupedStat
    rw [List.map_map]
    have : ((fun p : (String × String) × ℚ => p.1) ∘
        fun k₀ => (k₀, stat ((groupOf (correct_decodes df) k₀).map duration_ms)))
        = id := rfl
    rw [this, List.map_id]
    exact hkeys k

/-- Witness for C4 at a concrete frame: the (decoding, rqrr) key is present
because of its one correct record, its statistic is taken over the
correct-only subset, and that subset is non-empty. -/
theorem c4_correct_only_durations_witness :
    (("decoding", "rqrr") ∈ (groupedStat mean exC4).map (fun p => p.1))
    ∧ groupOf (correct_decodes exC4) ("decoding", "rqrr") ≠ [] := by
  have h := c4_correct_only_durations mean exC4 ("decoding", "rqrr") 1
  have hmem : (("decoding", "rqrr"), (1 : ℚ)) ∈ groupedStat mean exC4 := by
    simp [groupedStat, groupKeys, groupOf, correct_decodes, keyOf,
      firstSeenUniques, mean, duration_ms, exC4]
  exact ⟨h.2.1.mpr ⟨exC4.get ⟨0, by norm_num [exC4]⟩, by simp [exC4], by decide, by decide⟩,
    (h.1 hmem).2.1⟩

/-- C7, as stated, is false on the code: with an input whose
successful-decodes subset is empty, `generate_visualizations` does not skip
the time-distribution chart and continue — the 0.95 quantile of the empty
`duration_ms` series is NaN, the axis-limit call raises, and the run aborts
with no chart produced at all, in particular without generating the other
three charts. -/
theorem c7_counterexample :
    correct_decodes exC7 = []
    ∧ vizCharts exC7 = Except.error "ValueError: Axis limits cannot be NaN or Inf" := by
  exact ⟨by simp [correct_decodes, exC7], rfl⟩

/-- C7 amended — when the successful-decodes subset is empty, no chart is
skipped with a notice; the first chart's axis-limit computation receives
the NaN quantile of the empty subset and raises, so the whole run errors
out and none of the four charts is generated. -/
theorem c7_empty_subset_aborts_run (df : List Record)
    (h : correct_decodes df = []) :
    vizCharts df = Except.error "ValueError: Axis limits cannot be NaN or Inf" := by
  simp [vizCharts, h, quantile95, sortBy]

/-- Witness for C7's amended theorem at the concrete all-incorrect frame. -/
theorem c7_empty_subset_aborts_run_witness :
    vizCharts exC7 = Except.error "ValueError: Axis limits cannot be NaN or Inf" :=
  c7_empty_subset_aborts_run exC7 (by decide)

/-- C5 — The overlay builder draws a polygon for a detection if and only
if its `points` sequence is non-empty (`debug_viz.py`'s `if points:`
guard), and every detection — drawn or not — contributes its line to the
textual status report printed for its library. -/
theorem c5_draw_iff_nonempty_points (s : Snapshot) (d : Detection)
    (hd : d ∈ s.detections) :
    (Patch.mk d.points (detLabel d) ∈ detPatchesOf s ↔ d.points ≠ [])
    ∧ reportLine d ∈ statusReportOf s := by
  refine ⟨⟨?_, ?_⟩, List.mem_map.mpr ⟨d, hd, rfl⟩⟩
  · intro hp
    obtain ⟨d₁, hd₁, heq⟩ := List.mem_map.mp hp
    have hne := (List.mem_filter.mp hd₁).2
    simp only [decide_eq_true_eq] at hne
    have hpts : d₁.points = d.points := congrArg Patch.pts heq
    rw [hpts] at hne
    exact hne
  · intro hne
    exact List.mem_map.mpr ⟨d, List.mem_filter.mpr ⟨hd, by simpa using hne⟩, rfl⟩

/-- Witness for C5 at a concrete snapshot holding one empty and one
non-empty detection: the non-empty one is drawn and reported. -/
theorem c5_draw_iff_nonempty_points_witness :
    Patch.mk detC5.points (detLabel detC5) ∈ detPatchesOf snapC5
    ∧ reportLine detC5 ∈ statusReportOf snapC5 := by
  have h := c5_draw_iff_nonempty_points snapC5 detC5 (by simp [snapC5, detC5])
  exact ⟨h.1.mpr (by simp [detC5]), h.2⟩

/-- C6, as stated, is false on the code: for Scenario C's snapshot
(`ground_truth_sets = []`, one detection with `points = []`) the overlay
indeed renders the base image with no polygons, but the legend does
**not** show the library marked as not-found — no artist was added for
the empty detection, so the legend is empty; the not-found library
appears only in the printed status report. -/
theorem c6_counterexample :
    gtPatchesOf snapC6 = []
    ∧ detPatchesOf snapC6 = []
    ∧ legendLabelsOf snapC6 = []
    ∧ statusReportOf snapC6 = ["Library: rqrr, Status: NotFound"] := by
  exact ⟨rfl, rfl, rfl, rfl⟩

/-- C6 amended — for a snapshot with `ground_truth_sets = []` and only
empty-points detections, the overlay renders the base image with no
polygons and an empty legend, while each library's not-found status is
reported in the textual status output. -/
theorem c6_empty_snapshot_renders_plain (s : Snapshot)
    (hgt : s.ground_truth_sets = [])
    (hdet : ∀ d ∈ s.detections, d.points = []) :
    gtPatchesOf s = []
    ∧ detPatchesOf s = []
    ∧ legendLabelsOf s = []
    ∧ statusReportOf s = s.detections.map reportLine := by
  have h1 : gtPatchesOf s = [] := by rw [gtPatchesOf, hgt]; rfl
  have h2 : detPatchesOf s = [] := by
    unfold detPatchesOf
    have hfil : s.detections.filter (fun d => d.points ≠ []) = [] :=
      List.filter_eq_nil_iff.mpr (fun d hd => by simp [hdet d hd])
    rw [hfil]
    rfl
  refine ⟨h1, h2, ?_, rfl⟩
  unfold legendLabelsOf visibleLabels allPatchLabels
  rw [h1, h2]
  rfl

/-- Witness for C6's amended theorem at Scenario C's snapshot. -/
theorem c6_empty_snapshot_renders_plain_witness :
    legendLabelsOf snapC6 = []
    ∧ statusReportOf snapC6 = (snapC6.detections).map reportLine := by
  have h := c6_empty_snapshot_renders_plain snapC6 rfl (by simp [snapC6])
  exact ⟨h.2.2.1, h.2.2.2⟩

/-- C8 — When a snapshot's `image_path` exists neither as given nor at the
single `../` fallback rewrite, the overlay builder produces no overlay for
that image: `Image.open` fails, the handler prints its message and returns
early, so `visualize_debug` yields nothing (and, being per-image, aborts
only this image's overlay). -/
theorem c8_missing_image_aborts (fs : String → Bool) (s : Snapshot)
    (h1 : fs s.image_path = false)
    (h2 : fs ("../" ++ s.image_path) = false) :
    visualizeDebug fs s = none := by
  simp [visualizeDebug, resolveImagePath, h1, h2]

/-- Witness for C8 on an empty file system. -/
theorem c8_missing_image_aborts_witness :
    visualizeDebug (fun _ => false) snapC8 = none :=
  c8_missing_image_aborts (fun _ => false) snapC8 rfl rfl

theorem gtPatchesAux_pos (l : List (List (ℚ × ℚ))) (k : ℕ) (hk : k ≠ 0) :
    gtPatchesAux k l = l.map (fun pts => Patch.mk pts "") := by
  induction l generalizing k with
  | nil => rfl
  | cons p rest ih =>
    simp [gtPatchesAux, hk, ih (k + 1) (Nat.succ_ne_zero k)]

/-- C10 — With at least one ground-truth polygon, the overlay labels only
the first ground-truth polygon `'Ground Truth'` (`set_idx == 0`) and gives
every later one the empty label, and after the label-keyed legend
deduplication at most one `'Ground Truth'` legend entry appears, however
many ground-truth polygons were drawn. -/
theorem c10_ground_truth_label_once (s : Snapshot) (p : List (ℚ × ℚ))
    (rest : List (List (ℚ × ℚ)))
    (hgt : s.ground_truth_sets = p :: rest) :
    gtPatchesOf s = Patch.mk p "Ground Truth" :: rest.map (fun q => Patch.mk q "")
    ∧ (legendLabelsOf s).count "Ground Truth" ≤ 1 := by
  constructor
  · rw [gtPatchesOf, hgt]
    simp [gtPatchesAux, gtPatchesAux_pos rest 1 one_ne_zero]
  · exact List.nodup_iff_count_le_one.mp (nodup_firstSeenUniques (visibleLabels s))
      "Ground Truth"

/-- Witness for C10 at a snapshot with two ground-truth polygons. -/
theorem c10_ground_truth_label_once_witness :
    gtPatchesOf snapC10
      = (Patch.mk [(0, 0), (4, 0), (4, 4)] "Ground Truth")
        :: [Patch.mk [(8, 8), (12, 8), (12, 12)] ""]
    ∧ (legendLabelsOf snapC10).count "Ground Truth" ≤ 1 := by
  have h := c10_ground_truth_label_once snapC10 [(0, 0), (4, 0), (4, 4)]
    [[(8, 8), (12, 8), (12, 12)]] rfl
  exact ⟨h.1, h.2⟩

theorem insertBy_perm {α : Type} (le : α → α → Bool) (x : α) (l : List α) :
    (insertBy le x l).Perm (x :: l) := by
  induction l with
  | nil => exact List.Perm.refl _
  | cons y rest ih =>
    unfold insertBy
    by_cases h : le x y = true
    · rw [if_pos h]
    · rw [if_neg h]
      exact (ih.cons y).trans (List.Perm.swap x y rest)

theorem sortBy_perm {α : Type} (le : α → α → Bool) (l : List α) :
    (sortBy le l).Perm l := by
  induction l with
  | nil => exact List.Perm.refl _
  | cons x rest ih =>
    exact (insertBy_perm le x (sortBy le rest)).trans (ih.cons x)

theorem sum_map_filter_ne {α : Type} [DecidableEq α] (f : α → ℕ) (x : α)
    (u : List α) (hu : u.Nodup) :
    ((u.filter (fun y => y ≠ x)).map f).sum + (if x ∈ u then f x else 0)
      = (u.map f).sum := by
  induction u with
  | nil => simp
  | cons y u ih =>
    rcases List.nodup_cons.mp hu with ⟨hy, hu2⟩
    by_cases hxy : y = x
    · subst hxy
      have hfil : u.filter (fun z => z ≠ y) = u :=
        List.filter_eq_self.mpr (fun z hz => by
          simp only [decide_eq_true_eq]
          exact fun hzy => hy (hzy ▸ hz))
      rw [List.filter_cons, if_neg (by simp), if_pos (List.mem_cons_self y u), hfil]
      simp only [List.map_cons, List.sum_cons]
      omega
    · have hite : (if x ∈ y :: u then f x else 0) = (if x ∈ u then f x else 0) := by
        by_cases hxu : x ∈ u
        · rw [if_pos (List.mem_cons_of_mem y hxu), if_pos hxu]
        · rw [if_neg ?_, if_neg hxu]
          intro hmem
          rcases List.mem_cons.mp hmem with h1 | h1
          · exact hxy h1.symm
          · exact hxu h1
      have hih := ih hu2
      rw [List.filter_cons, if_pos (by simp [hxy]), hite]
      simp only [List.map_cons, List.sum_cons]
      omega

theorem sum_count_firstSeenUniques {α : Type} [DecidableEq α] (l : List α) :
    ((firstSeenUniques l).map (fun v => l.count v)).sum = l.length := by
  induction l with
  | nil => simp [firstSeenUniques]
  | cons x rest ih =>
    simp only [firstSeenUniques, List.map_cons, List.sum_cons]
    have hcne : ((firstSeenUniques rest).filter (fun y => y ≠ x)).map
          (fun v => (x :: rest).count v)
        = ((firstSeenUniques rest).filter (fun y => y ≠ x)).map
          (fun v => rest.count v) := by
      apply List.map_congr_left
      intro v hv
      have hvne := (List.mem_filter.mp hv).2
      simp only [decide_eq_true_eq] at hvne
      simp [List.count_cons, hvne]
    rw [hcne]
    have hkey : (((firstSeenUniques rest).filter (fun y => y ≠ x)).map
          (fun v => rest.count v)).sum
          + (if x ∈ firstSeenUniques rest then rest.count x else 0)
        = rest.length := by
      have h0 := sum_map_filter_ne (fun v => rest.count v) x
        (firstSeenUniques rest) (nodup_firstSeenUniques rest)
      rw [ih] at h0
      exact h0
    show (x :: rest).count x
        + (((firstSeenUniques rest).filter (fun y => y ≠ x)).map
            (fun v => rest.count v)).sum
      = (x :: rest).length
    rw [List.count_cons_self, List.length_cons]
    by_cases hx : x ∈ rest
    · rw [if_pos (mem_firstSeenUniques.mpr hx)] at hkey
      omega
    · have hcz : rest.count x = 0 := List.count_eq_zero.mpr hx
      rw [if_neg (fun h => hx (mem_firstSeenUniques.mp h))] at hkey
      omega

theorem insertPairs_filter_eq (c : ℕ) (x : String × ℕ) (l : List (String × ℕ))
    (hx : x.2 = c) :
    (insertBy (fun p q => q.2 ≤ p.2) x l).filter (fun p => p.2 = c)
      = x :: l.filter (fun p => p.2 = c) := by
  induction l with
  | nil => simp [insertBy, hx]
  | cons y rest ih =>
    unfold insertBy
    by_cases h : (decide (y.2 ≤ x.2)) = true
    · rw [if_pos h]
      rw [List.filter_cons, if_pos (by simp [hx])]
    · rw [if_neg h]
      have hylt : x.2 < y.2 := by
        simp only [decide_eq_true_eq] at h
        omega
      have hyne : ¬ y.2 = c := by omega
      rw [List.filter_cons, if_neg (by simp [hyne]), ih,
        List.filter_cons, if_neg (by simp [hyne])]

theorem insertPairs_filter_ne (c : ℕ) (x : String × ℕ) (l : List (String × ℕ))
    (hx : ¬ x.2 = c) :
    (insertBy (fun p q => q.2 ≤ p.2) x l).filter (fun p => p.2 = c)
      = l.filter (fun p => p.2 = c) := by
  induction l with
  | nil => simp [insertBy, hx]
  | cons y rest ih =>
    unfold insertBy
    by_cases h : (decide (y.2 ≤ x.2)) = true
    · rw [if_pos h]
      rw [List.filter_cons, if_neg (by simp [hx])]
    · rw [if_neg h]
      rw [List.filter_cons, ih, List.filter_cons]

theorem sortPairs_filter (c : ℕ) (l : List (String × ℕ)) :
    (sortBy (fun p q => q.2 ≤ p.2) l).filter (fun p => p.2 = c)
      = l.filter (fun p => p.2 = c) := by
  induction l with
  | nil => rfl
  | cons x rest ih =>
    show (insertBy (fun p q => q.2 ≤ p.2) x
        (sortBy (fun p q => q.2 ≤ p.2) rest)).filter (fun p => p.2 = c) = _
    by_cases hx : x.2 = c
    · rw [insertPairs_filter_eq c x _ hx, ih,
        List.filter_cons, if_pos (by simp [hx])]
    · rw [insertPairs_filter_ne c x _ hx, ih,
        List.filter_cons, if_neg (by simp [hx])]

theorem pairwise_insertPairs (x : String × ℕ) (l : List (String × ℕ))
    (hl : l.Pairwise (fun a b => b.2 ≤ a.2)) :
    (insertBy (fun p q => q.2 ≤ p.2) x l).Pairwise (fun a b => b.2 ≤ a.2) := by
  induction l with
  | nil => simp [insertBy]
  | cons y rest ih =>
    rcases List.pairwise_cons.mp hl with ⟨hy, hrest⟩
    unfold insertBy
    by_cases h : (decide (y.2 ≤ x.2)) = true
    · rw [if_pos h]
      simp only [decide_eq_true_eq] at h
      refine List.pairwise_cons.mpr ⟨?_, hl⟩
      intro z hz
      rcases List.mem_cons.mp hz with hz | hz
      · rw [hz]; exact h
      · exact le_trans (hy z hz) h
    · rw [if_neg h]
      simp only [decide_eq_true_eq] at h
      refine List.pairwise_cons.mpr ⟨?_, ih hrest⟩
      intro z hz
      have hz2 := List.mem_cons.mp
        ((insertBy_perm (fun p q => q.2 ≤ p.2) x rest).mem_iff.mp hz)
      rcases hz2 with hz2 | hz2
      · rw [hz2]; omega
      · exact hy z hz2

theorem pairwise_sortPairs (l : List (String × ℕ)) :
    (sortBy (fun p q => q.2 ≤ p.2) l).Pairwise (fun a b => b.2 ≤ a.2) := by
  induction l with
  | nil => simp [sortBy]
  | cons x rest ih => exact pairwise_insertPairs x _ ih

/-- C9, as stated, is false on the code: pandas `value_counts` drops NaN
values (`dropna=True` is its default), so for a filtered set containing an
`Incorrect` record whose `decoded_text` cell is missing, the counts of
`incorrect['decoded_text'].value_counts()` sum to 0 while the filtered
input has size 1. -/
theorem c9_counterexample :
    ((value_counts (decodedColumn (incorrectOf exC9))).map (fun p => p.2)).sum = 0
    ∧ (incorrectOf exC9).length = 1 := by
  exact ⟨rfl, rfl⟩

/-- C9 amended — the counts of the `value_counts` frequency table sum to
the number of records in the filtered input whose field value is present
(pandas drops the NaN entries); the table is ordered descending by count;
and equal counts keep first-seen order (the table filtered to any fixed
count equals the first-seen-ordered count list filtered to that count,
`value_counts` being a stable descending sort of it). -/
theorem c9_value_counts (xs : List (Option String)) (c : ℕ) :
    ((value_counts xs).map (fun p => p.2)).sum = (presentValues xs).length
    ∧ (value_counts xs).Pairwise (fun a b => b.2 ≤ a.2)
    ∧ (value_counts xs).filter (fun p => p.2 = c)
        = (countsInFirstSeenOrder xs).filter (fun p => p.2 = c) := by
  unfold value_counts
  refine ⟨?_, pairwise_sortPairs _, sortPairs_filter c _⟩
  have hperm := sortBy_perm (fun p q : String × ℕ => q.2 ≤ p.2)
    (countsInFirstSeenOrder xs)
  rw [(hperm.map (fun p => p.2)).sum_eq]
  unfold countsInFirstSeenOrder
  rw [List.map_map]
  exact sum_count_firstSeenUniques (presentValues xs)

end QrBenchmark
